import Mathlib

/-!
# Verification of the speech-to-text processing pipeline

A shallow embedding of the Lambda handlers of the `speech-to-email` backend:
the ingestion (upload) handler, the transcription-completion handler, the
article-enhancement handler, the email (delivery) handler and the status-query
handler, together with proofs of the pipeline's claimed invariants.

Conventions of the embedding:
* A DynamoDB item is a `Item` structure with one `Option` field per attribute
  the handlers ever read or write; an absent attribute is `none`.
* The DynamoDB table is a function `Store := String → Option Item`, keyed by
  the partition key `PK` (the sort key is the constant `'RECORD'` throughout
  the source, so it is dropped).
* External services (Transcribe, Bedrock, SES) are oracles: functions from the
  attempt index to the outcome of that call.
* `new Date().toISOString()` is modelled by an opaque `now : String` parameter
  passed to each handler run; no claim inspects timestamp values.
-/

namespace SpeechToEmail

/-- One DynamoDB item of the processing table.  Each field models the
attribute of the same name; `none` means the attribute is absent.  The
handlers in the repository never write a `completedAt` attribute, so the
field exists here only to record that fact. -/
structure Item where
  audioFileKey : Option String := none
  status : Option String := none
  createdAt : Option String := none
  updatedAt : Option String := none
  retryCount : Option Nat := none
  transcribeJobName : Option String := none
  transcriptionText : Option String := none
  enhancedArticleText : Option String := none
  errorMessage : Option String := none
  bedrockProcessedAt : Option String := none
  bedrockTokenUsage : Option String := none
  emailSentAt : Option String := none
  emailMessageId : Option String := none
  completedAt : Option String := none
  deriving DecidableEq, Repr

/-- The DynamoDB table, keyed by partition key `PK` (the sort key is always
the constant string `'RECORD'` in the source, so it is omitted). -/
def Store := String → Option Item

/-- Point write: `UpdateItem` semantics — if the key is absent the item is
created from an empty item (DynamoDB `UpdateItem` with `SET` creates the
item when it does not exist). -/
def Store.updateItem (s : Store) (id : String) (f : Item → Item) : Store :=
  fun k => if k = id then some (f ((s id).getD {})) else s k

/-- Point insert used by the conditional `PutItem`. -/
def Store.putItem (s : Store) (id : String) (item : Item) : Store :=
  fun k => if k = id then some item else s k

/-!
## Status-query handler (`lambda/status-handler/index.ts`)

The handler derives a progress value and a description purely from the
`status` string (lines 62–97).
-/

/-- The progress switch of the status handler (lines 62–97); `progress` is
initialised to `0` before the switch, so unknown statuses keep `0`. -/
def progressOf (status : String) : ℚ :=
  if status = "uploaded" then 0.15
  else if status = "transcribing" then 0.4
  else if status = "transcription_completed" then 0.6
  else if status = "enhancing_article" then 0.8
  else if status = "article_enhanced" then 0.9
  else if status = "email_sent" then 1.0
  else if status = "failed" then 0
  else 0

/-- The description switch of the status handler (lines 62–97). -/
def statusDescriptionOf (status : String) : String :=
  if status = "uploaded" then "Audio file uploaded, starting transcription..."
  else if status = "transcribing" then "Converting speech to text..."
  else if status = "transcription_completed" then "Transcription complete, enhancing article..."
  else if status = "enhancing_article" then "Creating newspaper article with AI..."
  else if status = "article_enhanced" then "Article enhanced, sending email..."
  else if status = "email_sent" then "Process complete! Email sent successfully."
  else if status = "failed" then "Processing failed. Please try again."
  else "Unknown status"

/-- The pipeline statuses in their processing order.  The source uses the
status strings `uploaded, transcribing, transcription_completed,
enhancing_article, article_enhanced, email_sent`, which the specification
calls `uploaded, transcribing, transcribed, enhancing, enhanced, delivered`. -/
def pipelineOrder : List String :=
  ["uploaded", "transcribing", "transcription_completed",
   "enhancing_article", "article_enhanced", "email_sent"]

/-- Rank of a status in the order
`uploaded < transcribing < transcribed < enhancing < enhanced
< {delivered, failed}`; `email_sent` (delivered) and `failed` share the
top rank because `failed` is reachable sideways from every stage. -/
def statusRank (status : String) : Nat :=
  if status = "uploaded" then 0
  else if status = "transcribing" then 1
  else if status = "transcription_completed" then 2
  else if status = "enhancing_article" then 3
  else if status = "article_enhanced" then 4
  else if status = "email_sent" then 5
  else if status = "failed" then 5
  else 0

/-!
## Ingestion handler (`src/unnamed/part_001`, the S3 upload handler)

`objectKey` stands for `decodeURIComponent(record.s3.object.key.replace(/\+/g, ' '))`;
that decoding is a pure function of the event applied identically at lines 25
and 148 of the source, so the model takes the decoded key as input.
-/

/-- One record of the triggering S3 event. -/
structure S3Record where
  bucket : String
  objectKey : String
  deriving DecidableEq, Repr

/-- JavaScript `s.includes(sub)` on the character lists of the strings. -/
def hasSub (sub : List Char) : List Char → Bool
  | [] => sub.isEmpty
  | c :: rest => sub.isPrefixOf (c :: rest) || hasSub sub rest

/-- JavaScript `s.includes(sub)`. -/
def strContains (s sub : String) : Bool :=
  hasSub sub.toList s.toList

/-- JavaScript `s.split(sep)` for a single-character separator (the only kind
the handlers use: `'/'`, `'.'`, `'-'`), computed on the character list so that
it reduces by evaluation. -/
def jsSplit (s : String) (sep : Char) : List String :=
  (s.data.splitOn sep).map String.mk

/-- JavaScript `parts.join(sep)` for a single-character separator. -/
def jsJoin (sep : Char) (parts : List String) : String :=
  String.mk (List.intercalate [sep] (parts.map String.data))

/-- Record-id extraction of the upload handler (lines 30–32):
`objectKey.split('/')` last element, then `.split('.')[0]`. -/
def extractRecordId (objectKey : String) : String :=
  let keyParts := jsSplit objectKey '/'
  let fileName := keyParts.getLastD ""
  (jsSplit fileName '.').headD ""

/-- The transcription job name generated at line 94:
``` `speech-to-email-${recordId}-${Date.now()}` ```. -/
def transcribeJobNameOf (recordId : String) (ts : Nat) : String :=
  "speech-to-email-" ++ recordId ++ "-" ++ Nat.repr ts

/-- Outcome of `StartTranscriptionJobCommand` (an oracle for the external
Transcribe service; `err` is a thrown exception with the given message). -/
inductive StartJobResult
  | ok
  | err (msg : String)
  deriving DecidableEq, Repr

/-- The item created by the conditional `PutItem` at lines 56–80. -/
def newUploadItem (objectKey now : String) : Item :=
  { audioFileKey := some objectKey, status := some "uploaded",
    createdAt := some now, updatedAt := some now, retryCount := some 0 }

/-- The `UpdateItem` at lines 116–133:
`SET status = 'transcribing', transcribeJobName, updatedAt`. -/
def updTranscribing (jobName now : String) (item : Item) : Item :=
  { item with
    status := some "transcribing",
    transcribeJobName := some jobName,
    updatedAt := some now }

/-- The failure `UpdateItem` used by the upload handler's catch loop
(lines 154–169) and by the transcription handler's failure paths:
`SET status = 'failed', errorMessage, updatedAt`. -/
def updFailed (msg now : String) (item : Item) : Item :=
  { item with
    status := some "failed",
    errorMessage := some msg,
    updatedAt := some now }

/-- The conditional `PutItem` (`ConditionExpression: 'attribute_not_exists(PK)'`):
`none` models the `ConditionalCheckFailedException`. -/
def Store.putIfAbsent (s : Store) (id : String) (item : Item) : Option Store :=
  match s id with
  | some _ => none
  | none => some (s.putItem id item)

/-- State accumulated by one invocation of the upload handler: the table,
the transcription jobs started and the record ids freshly inserted. -/
structure UploadRun where
  store : Store
  jobsStarted : List String
  putsDone : List String

/-- Processing of one S3 record by the upload handler's main loop
(lines 23–135).  Returns the updated run state and `some msg` when an
exception with message `msg` escapes to the outer catch. -/
def processUploadRecord (startJob : String → StartJobResult) (now : String)
    (ts : Nat) (run : UploadRun) (r : S3Record) : UploadRun × Option String :=
  let recordId := extractRecordId r.objectKey
  if recordId = "" then (run, none)
  else
    match run.store recordId with
    | some _ => (run, none)
    | none =>
      match run.store.putIfAbsent recordId (newUploadItem r.objectKey now) with
      | none => (run, none)
      | some store1 =>
        let run1 : UploadRun :=
          { run with store := store1, putsDone := run.putsDone ++ [recordId] }
        let jobName := transcribeJobNameOf recordId ts
        match startJob jobName with
        | .err msg => (run1, some msg)
        | .ok =>
          ({ run1 with
              store := store1.updateItem recordId (updTranscribing jobName now),
              jobsStarted := run1.jobsStarted ++ [jobName] }, none)

/-- The upload handler's `for`-loop over `event.Records`; a thrown exception
escapes the loop. -/
def uploadLoop (startJob : String → StartJobResult) (now : String) (ts : Nat) :
    UploadRun → List S3Record → UploadRun × Option String
  | run, [] => (run, none)
  | run, r :: rs =>
    match processUploadRecord startJob now ts run r with
    | (run1, some msg) => (run1, some msg)
    | (run1, none) => uploadLoop startJob now ts run1 rs

/-- The upload handler's catch loop (lines 146–176): every record of the
event whose record id parses is marked `failed` with the error message. -/
def applyUploadCatch (msg now : String) (records : List S3Record) (store : Store) :
    Store :=
  records.foldl
    (fun st r =>
      let recordId := extractRecordId r.objectKey
      if recordId = "" then st else st.updateItem recordId (updFailed msg now))
    store

/-- One invocation of the upload handler on an S3 event (lines 19–180).
The second component is `some msg` when the handler rethrows an error. -/
def uploadHandler (startJob : String → StartJobResult) (now : String) (ts : Nat)
    (records : List S3Record) (store0 : Store) : UploadRun × Option String :=
  match uploadLoop startJob now ts { store := store0, jobsStarted := [], putsDone := [] } records with
  | (run, none) => (run, none)
  | (run, some msg) =>
    ({ run with store := applyUploadCatch msg now records run.store }, some msg)

lemma putIfAbsent_eq_some {s : Store} {id : String} {item : Item} {s' : Store}
    (h : s.putIfAbsent id item = some s') : s' = s.putItem id item := by
  unfold Store.putIfAbsent at h
  cases hs : s id with
  | some it => rw [hs] at h; exact absurd h (by simp)
  | none => rw [hs] at h; exact (Option.some_injective _ h).symm

lemma putItem_isSome {s : Store} {id : String} {item : Item} (k : String)
    (h : (s k).isSome) : ((s.putItem id item) k).isSome := by
  unfold Store.putItem
  split <;> simp_all

lemma updateItem_isSome {s : Store} {id : String} {f : Item → Item} (k : String)
    (h : (s k).isSome) : ((s.updateItem id f) k).isSome := by
  unfold Store.updateItem
  split <;> simp_all

lemma updateItem_self_isSome (s : Store) (id : String) (f : Item → Item) :
    ((s.updateItem id f) id).isSome := by
  unfold Store.updateItem
  simp

lemma processUploadRecord_store_mono {sj : String → StartJobResult} {now : String}
    {ts : Nat} {run : UploadRun} {r : S3Record} (k : String)
    (h : (run.store k).isSome) :
    (((processUploadRecord sj now ts run r).1).store k).isSome := by
  unfold processUploadRecord
  dsimp only
  split
  · exact h
  · split
    · exact h
    · split
      · exact h
      · rename_i hput
        have hs' := putIfAbsent_eq_some hput
        subst hs'
        split
        · exact putItem_isSome k h
        · exact updateItem_isSome k (putItem_isSome k h)

lemma processUploadRecord_self_isSome {sj : String → StartJobResult} {now : String}
    {ts : Nat} {run : UploadRun} {r : S3Record}
    (h : extractRecordId r.objectKey ≠ "") :
    (((processUploadRecord sj now ts run r).1).store (extractRecordId r.objectKey)).isSome := by
  unfold processUploadRecord
  dsimp only
  split
  · exact absurd (by assumption) h
  · split
    · rename_i it heq
      simp [heq]
    · split
      · rename_i hnone _ hput
        unfold Store.putIfAbsent at hput
        rw [hnone] at hput
        exact absurd hput (by simp)
      · rename_i hput
        have hs' := putIfAbsent_eq_some hput
        subst hs'
        have hself : ((run.store.putItem (extractRecordId r.objectKey)
            (newUploadItem r.objectKey now)) (extractRecordId r.objectKey)).isSome := by
          unfold Store.putItem
          simp
        split
        · exact hself
        · exact updateItem_isSome _ hself

lemma uploadLoop_store_mono {sj : String → StartJobResult} {now : String} {ts : Nat}
    (records : List S3Record) (run : UploadRun) (k : String)
    (h : (run.store k).isSome) :
    (((uploadLoop sj now ts run records).1).store k).isSome := by
  induction records generalizing run with
  | nil => exact h
  | cons r rs ih =>
    unfold uploadLoop
    split
    · rename_i run1 msg heq
      have := @processUploadRecord_store_mono sj now ts run r k h
      rw [heq] at this
      exact this
    · rename_i run1 heq
      have := @processUploadRecord_store_mono sj now ts run r k h
      rw [heq] at this
      exact ih run1 this

lemma uploadLoop_ok_presence {sj : String → StartJobResult} {now : String} {ts : Nat}
    {records : List S3Record} {run : UploadRun}
    (hok : (uploadLoop sj now ts run records).2 = none) :
    ∀ r ∈ records, extractRecordId r.objectKey ≠ "" →
      (((uploadLoop sj now ts run records).1).store (extractRecordId r.objectKey)).isSome := by
  induction records generalizing run with
  | nil => intro r hr; exact absurd hr (List.not_mem_nil r)
  | cons q rs ih =>
    intro r hr hid
    rcases hstep : processUploadRecord sj now ts run q with ⟨run1, e⟩
    cases e with
    | some msg =>
      have hL : uploadLoop sj now ts run (q :: rs) = (run1, some msg) := by
        simp only [uploadLoop]; rw [hstep]
      rw [hL] at hok
      exact absurd hok (by simp)
    | none =>
      have hL : uploadLoop sj now ts run (q :: rs) = uploadLoop sj now ts run1 rs := by
        simp only [uploadLoop]; rw [hstep]
      rw [hL] at hok ⊢
      rcases List.mem_cons.mp hr with hq | hrs
      · subst hq
        have h1 : ((run1.store) (extractRecordId r.objectKey)).isSome := by
          have := @processUploadRecord_self_isSome sj now ts run r hid
          rw [hstep] at this
          exact this
        exact uploadLoop_store_mono rs run1 _ h1
      · exact @ih run1 hok r hrs hid

lemma applyUploadCatch_store_mono {msg now : String} (records : List S3Record)
    (store : Store) (k : String) (h : (store k).isSome) :
    ((applyUploadCatch msg now records store) k).isSome := by
  induction records generalizing store with
  | nil => exact h
  | cons r rs ih =>
    unfold applyUploadCatch
    simp only [List.foldl_cons]
    apply ih
    dsimp only
    split
    · exact h
    · exact updateItem_isSome k h

lemma applyUploadCatch_marks {msg now : String} (records : List S3Record)
    (store : Store) :
    ∀ r ∈ records, extractRecordId r.objectKey ≠ "" →
      ∃ it, (applyUploadCatch msg now records store) (extractRecordId r.objectKey) = some it
        ∧ it.status = some "failed" ∧ it.errorMessage = some msg := by
  have keep : ∀ (rs : List S3Record) (st : Store) (id : String),
      (∃ it, st id = some it ∧ it.status = some "failed" ∧ it.errorMessage = some msg) →
      ∃ it, (applyUploadCatch msg now rs st) id = some it
        ∧ it.status = some "failed" ∧ it.errorMessage = some msg := by
    intro rs
    induction rs with
    | nil => intro st id h; exact h
    | cons q qs ih =>
      intro st id h
      unfold applyUploadCatch
      simp only [List.foldl_cons]
      apply ih
      dsimp only
      split
      · exact h
      · unfold Store.updateItem
        by_cases hk : id = extractRecordId q.objectKey
        · exact ⟨updFailed msg now ((st (extractRecordId q.objectKey)).getD {}),
            by simp [hk], rfl, rfl⟩
        · obtain ⟨it, hit, h1, h2⟩ := h
          exact ⟨it, by simp [hk, hit], h1, h2⟩
  intro r hr hid
  induction records generalizing store with
  | nil => exact absurd hr (List.not_mem_nil r)
  | cons q qs ih =>
    rcases List.mem_cons.mp hr with hq | hqs
    · subst hq
      unfold applyUploadCatch
      simp only [List.foldl_cons]
      apply keep
      dsimp only
      rw [if_neg hid]
      unfold Store.updateItem
      exact ⟨updFailed msg now ((store (extractRecordId r.objectKey)).getD {}),
        by simp, rfl, rfl⟩
    · unfold applyUploadCatch
      simp only [List.foldl_cons]
      exact ih _ hqs

lemma processUploadRecord_skip {sj : String → StartJobResult} {now : String}
    {ts : Nat} {run : UploadRun} {r : S3Record}
    (h : extractRecordId r.objectKey = "" ∨ ((run.store) (extractRecordId r.objectKey)).isSome) :
    processUploadRecord sj now ts run r = (run, none) := by
  unfold processUploadRecord
  dsimp only
  by_cases hid : extractRecordId r.objectKey = ""
  · rw [if_pos hid]
  · rw [if_neg hid]
    rcases h with h | h
    · exact absurd h hid
    · cases hs : run.store (extractRecordId r.objectKey) with
      | some it => rfl
      | none => rw [hs] at h; exact absurd h (by simp)

lemma uploadLoop_skip {sj : String → StartJobResult} {now : String} {ts : Nat}
    {records : List S3Record} {run : UploadRun}
    (h : ∀ r ∈ records, extractRecordId r.objectKey = "" ∨
      ((run.store) (extractRecordId r.objectKey)).isSome) :
    uploadLoop sj now ts run records = (run, none) := by
  induction records with
  | nil => rfl
  | cons q qs ih =>
    unfold uploadLoop
    rw [processUploadRecord_skip (h q (List.mem_cons_self q qs))]
    exact ih fun r hr => h r (List.mem_cons_of_mem q hr)

lemma uploadHandler_presence {sj : String → StartJobResult} {now : String} {ts : Nat}
    (records : List S3Record) (store0 : Store) :
    ∀ r ∈ records, extractRecordId r.objectKey ≠ "" →
      (((uploadHandler sj now ts records store0).1).store (extractRecordId r.objectKey)).isSome := by
  intro r hr hid
  unfold uploadHandler
  rcases hloop : uploadLoop sj now ts
      { store := store0, jobsStarted := [], putsDone := [] } records with ⟨run, e⟩
  cases e with
  | none =>
    have := uploadLoop_ok_presence (by rw [hloop]) r hr hid
    rw [hloop] at this
    exact this
  | some msg =>
    dsimp only
    obtain ⟨it, hit, -, -⟩ := @applyUploadCatch_marks msg now
      records run.store r hr hid
    rw [hit]
    rfl

/-- C1: for every source key, at most one Submission Record is ever created,
even when the ingestion handler receives the same object-creation event more
than once.  A second invocation of the upload handler on the same event —
whatever the Transcribe oracle, timestamps or clock of either invocation —
leaves the table exactly as the first invocation left it, performs no insert
(`putsDone = []`), starts no transcription job (`jobsStarted = []`), and
exits without error: every record of the event is treated as a benign
duplicate, because its id already exists in the table. -/
theorem uploadHandler_duplicate_event_noop (sj1 sj2 : String → StartJobResult)
    (now1 now2 : String) (ts1 ts2 : Nat) (records : List S3Record) (store0 : Store) :
    uploadHandler sj2 now2 ts2 records ((uploadHandler sj1 now1 ts1 records store0).1).store
      = ({ store := ((uploadHandler sj1 now1 ts1 records store0).1).store,
           jobsStarted := [], putsDone := [] }, none) := by
  unfold uploadHandler
  rw [uploadLoop_skip]
  intro r hr
  by_cases hid : extractRecordId r.objectKey = ""
  · exact Or.inl hid
  · exact Or.inr (uploadHandler_presence records store0 r hr hid)

/-- C10: when processing any record of a multi-record ingestion event throws
(for example its transcription job fails to start), the upload handler's
catch path writes `status = 'failed'` and the error message onto every
submission record referenced by the event whose id parses — including
records earlier in the batch that had already been advanced to
`transcribing`. -/
theorem uploadHandler_catch_marks_all_records
    (sj : String → StartJobResult) (now : String) (ts : Nat)
    (records : List S3Record) (store0 : Store) (msg : String)
    (h : (uploadHandler sj now ts records store0).2 = some msg) :
    ∀ r ∈ records, extractRecordId r.objectKey ≠ "" →
      ∃ it, ((uploadHandler sj now ts records store0).1).store (extractRecordId r.objectKey)
          = some it ∧ it.status = some "failed" ∧ it.errorMessage = some msg := by
  intro r hr hid
  unfold uploadHandler at h ⊢
  rcases hloop : uploadLoop sj now ts
      { store := store0, jobsStarted := [], putsDone := [] } records with ⟨run, e⟩
  rw [hloop] at h
  cases e with
  | none => exact absurd h (by simp)
  | some m =>
    have hm : m = msg := by simpa using h
    subst hm
    exact applyUploadCatch_marks records run.store r hr hid

/-- Witness for `uploadHandler_catch_marks_all_records`: a two-record event;
record `rec1` is processed first and advanced to `transcribing`, then the
transcription job for `rec2` fails to start.  The error path overwrites
`rec1` — already successfully advanced — with `status = 'failed'`. -/
theorem uploadHandler_catch_marks_all_records_witness :
    ∃ it, ((uploadHandler
          (fun j => if strContains j "rec2" then StartJobResult.err "Transcribe down"
                    else StartJobResult.ok)
          "2024-01-01T00:00:00.000Z" 1234
          [⟨"bucket", "audio-files/2024/01/01/rec1.mp3"⟩,
           ⟨"bucket", "audio-files/2024/01/01/rec2.mp3"⟩]
          (fun _ => none)).1).store
        (extractRecordId "audio-files/2024/01/01/rec1.mp3")
      = some it ∧ it.status = some "failed" ∧ it.errorMessage = some "Transcribe down" :=
  uploadHandler_catch_marks_all_records _ _ _ _ _ _ (by decide)
    ⟨"bucket", "audio-files/2024/01/01/rec1.mp3"⟩ (by decide) (by decide)

/-!
## Transcription-completion handler (`lambda/transcription-handler/index.ts`)
-/

/-- Record-id recovery from a transcription job name (lines 34–41):
`jobName.split('-')`, require at least 4 pieces, then
`jobNameParts.slice(3, -1).join('-')` (`none` models the 400 early return). -/
def recoverRecordId (jobName : String) : Option String :=
  let jobNameParts := jsSplit jobName '-'
  if jobNameParts.length < 4 then none
  else some (jsJoin '-' ((jobNameParts.drop 3).dropLast))

/-- The transcript entry `{ transcript?: string }` of a Transcribe result. -/
structure TranscriptEntry where
  transcript : Option String
  deriving DecidableEq, Repr

/-- The `results` object of a Transcribe result artifact. -/
structure TranscriptResults where
  transcripts : List TranscriptEntry
  deriving DecidableEq, Repr

/-- A parsed transcript artifact, as the handler reads it:
`transcriptionResult.results?.transcripts?.[0]?.transcript`. -/
structure TranscriptArtifact where
  results : Option TranscriptResults
  deriving DecidableEq, Repr

/-- Transcript extraction (line 113):
`transcriptionResult.results?.transcripts?.[0]?.transcript || 'No transcription available'`;
JavaScript `||` also replaces an empty string, which is falsy. -/
def extractTranscript (a : TranscriptArtifact) : String :=
  match a.results with
  | none => "No transcription available"
  | some r =>
    match r.transcripts.head? with
    | none => "No transcription available"
    | some e =>
      match e.transcript with
      | none => "No transcription available"
      | some t => if t = "" then "No transcription available" else t

/-- The artifact contains no transcript text at
`results.transcripts[0].transcript`: some step of the optional chain is
missing, or the text is empty. -/
def hasNoTranscriptText (a : TranscriptArtifact) : Prop :=
  match a.results with
  | none => True
  | some r =>
    match r.transcripts.head? with
    | none => True
    | some e => e.transcript = none ∨ e.transcript = some ""

/-- The success `UpdateItem` of the transcription handler (lines 131–149):
`SET status = 'transcription_completed', transcriptionText, updatedAt` —
unconditional: it does not test the record's current status. -/
def updTranscriptionCompleted (text now : String) (item : Item) : Item :=
  { item with
    status := some "transcription_completed",
    transcriptionText := some text,
    updatedAt := some now }

/-- The payload the transcription handler passes to the article-enhancement
handler (lines 152–159). -/
structure EnhancementPayload where
  transcriptionText : String
  originalFileName : String
  timestamp : String
  recordId : String
  audioFileKey : String
  deriving DecidableEq, Repr

/-- `recordResult.Item?.audioFileKey?.S?.split('/').pop() || 'unknown'`
(line 128). -/
def originalFileNameOf (item : Item) : String :=
  match item.audioFileKey with
  | none => "unknown"
  | some k =>
    if (jsSplit k '/').getLastD "" = "" then "unknown"
    else (jsSplit k '/').getLastD ""

/-- The success path of the transcription handler after the artifact has been
downloaded and parsed (lines 110–174): extract the text, update the record
unconditionally to `transcription_completed`, and build the payload for the
synchronous invocation of the article-enhancement handler. -/
def transcriptionSuccess (artifact : TranscriptArtifact) (recordId now : String)
    (store : Store) : Store × EnhancementPayload :=
  let text := extractTranscript artifact
  let item := (store recordId).getD {}
  (store.updateItem recordId (updTranscriptionCompleted text now),
   { transcriptionText := text,
     originalFileName := originalFileNameOf item,
     timestamp := (item.createdAt).getD now,
     recordId := recordId,
     audioFileKey := (item.audioFileKey).getD "" })

lemma modifyHead_append_left {α : Type} (f : α → α) (l1 l2 : List α)
    (h : l1 ≠ []) : (l1 ++ l2).modifyHead f = l1.modifyHead f ++ l2 := by
  cases l1 with
  | nil => exact absurd rfl h
  | cons a t => simp

lemma splitOnP_sep_append {α : Type} (p : α → Bool) (sep : α)
    (hsep : p sep = true) (a b : List α) :
    (a ++ sep :: b).splitOnP p = a.splitOnP p ++ b.splitOnP p := by
  induction a with
  | nil => simp [List.splitOnP_cons, hsep, List.splitOnP_nil]
  | cons x xs ih =>
    by_cases hx : p x = true
    · simp [List.splitOnP_cons, hx, ih]
    · simp only [List.cons_append, List.splitOnP_cons, hx, if_false, ih]
      rw [modifyHead_append_left _ _ _ (List.splitOnP_ne_nil _ _)]
      simp

lemma splitOn_sep_append (sep : Char) (a b : List Char) :
    (a ++ sep :: b).splitOn sep = a.splitOn sep ++ b.splitOn sep := by
  simp only [List.splitOn]
  exact splitOnP_sep_append _ sep (by simp) a b

lemma splitOn_eq_single {sep : Char} {l : List Char} (h : sep ∉ l) :
    l.splitOn sep = [l] := by
  simp only [List.splitOn]
  apply List.splitOnP_eq_single
  intro x hx
  simp only [beq_iff_eq]
  exact fun hc => h (hc ▸ hx)

lemma toDigitsCore_mem (f : Nat) :
    ∀ (n : Nat) (acc : List Char), ∀ c ∈ Nat.toDigitsCore 10 f n acc,
      c ∈ acc ∨ ∃ m, m < 10 ∧ c = Nat.digitChar m := by
  induction f with
  | zero => intro n acc c hc; exact Or.inl hc
  | succ f ih =>
    intro n acc c hc
    simp only [Nat.toDigitsCore] at hc
    by_cases h0 : n / 10 = 0
    · rw [if_pos h0] at hc
      rcases List.mem_cons.mp hc with h | h
      · exact Or.inr ⟨n % 10, Nat.mod_lt _ (by norm_num), h⟩
      · exact Or.inl h
    · rw [if_neg h0] at hc
      rcases ih (n / 10) _ c hc with h | h
      · rcases List.mem_cons.mp h with h | h
        · exact Or.inr ⟨n % 10, Nat.mod_lt _ (by norm_num), h⟩
        · exact Or.inl h
      · exact Or.inr h

lemma repr_no_dash (n : Nat) : '-' ∉ (Nat.repr n).data := by
  intro hmem
  have hdig : ∀ m, m < 10 → Nat.digitChar m ≠ '-' := by decide
  have hdata : (Nat.repr n).data = Nat.toDigitsCore 10 (n + 1) n [] := rfl
  rw [hdata] at hmem
  rcases toDigitsCore_mem (n + 1) n [] '-' hmem with h | ⟨m, hm, hc⟩
  · exact absurd h (List.not_mem_nil _)
  · exact hdig m hm hc.symm

/-- C8: for every non-empty submission id — including ids that themselves
contain the separator `'-'` — and every numeric timestamp, splitting the
generated job name `speech-to-email-{recordId}-{timestamp}` on `'-'` and
joining `slice(3, -1)` back with `'-'` recovers the original id: the three
fixed prefix pieces are dropped from the front, the timestamp piece (whose
decimal digits contain no `'-'`) from the back, and the middle pieces
reassemble the id exactly. -/
theorem transcribeJobName_roundtrip (recordId : String) (ts : Nat)
    (h : recordId ≠ "") :
    recoverRecordId (transcribeJobNameOf recordId ts) = some recordId := by
  have hdata : (transcribeJobNameOf recordId ts).data
      = "speech".data ++ '-' :: ("to".data ++ '-' :: ("email".data ++ '-' ::
        (recordId.data ++ '-' :: (Nat.repr ts).data))) := by
    simp [transcribeJobNameOf, String.data_append]
  have hsplit : (transcribeJobNameOf recordId ts).data.splitOn '-'
      = "speech".data :: "to".data :: "email".data ::
        (recordId.data.splitOn '-' ++ [(Nat.repr ts).data]) := by
    rw [hdata, splitOn_sep_append, splitOn_sep_append, splitOn_sep_append,
      splitOn_sep_append, splitOn_eq_single (by decide),
      splitOn_eq_single (by decide), splitOn_eq_single (by decide),
      splitOn_eq_single (repr_no_dash ts)]
    rfl
  have hlen : 1 ≤ (recordId.data.splitOn '-').length :=
    List.length_pos.mpr (List.splitOnP_ne_nil _ _)
  unfold recoverRecordId jsSplit
  rw [hsplit]
  rw [if_neg (by simp)]
  congr 1
  have hdrop : (("speech".data :: "to".data :: "email".data ::
      (recordId.data.splitOn '-' ++ [(Nat.repr ts).data])).map String.mk).drop 3
      = ((recordId.data.splitOn '-').map String.mk) ++ [String.mk (Nat.repr ts).data] := by
    simp
  rw [hdrop, List.dropLast_concat]
  unfold jsJoin
  have hmaps : (((recordId.data.splitOn '-').map String.mk).map String.data)
      = recordId.data.splitOn '-' := by
    rw [List.map_map]
    exact List.map_id'' (fun _ => rfl) _
  rw [hmaps]
  have hint : List.intercalate ['-'] (recordId.data.splitOn '-') = recordId.data :=
    List.intercalate_splitOn _ _
  rw [hint]

/-- Witness for `transcribeJobName_roundtrip` at an id that itself contains
the separator. -/
theorem transcribeJobName_roundtrip_witness :
    recoverRecordId (transcribeJobNameOf "abc-123-def" 1699999999999)
      = some "abc-123-def" :=
  transcribeJobName_roundtrip "abc-123-def" 1699999999999 (by decide)

/-- C9: a transcript artifact that parses as JSON but carries no transcript
text at `results.transcripts[0].transcript` does not mark the record
`failed`: the handler writes the fixed placeholder
`'No transcription available'` as the transcript, sets the status to
`transcription_completed`, and the payload for the enhancement stage carries
the placeholder as the transcript. -/
theorem transcriptionHandler_missing_transcript_placeholder
    (artifact : TranscriptArtifact) (recordId now : String) (store : Store)
    (h : hasNoTranscriptText artifact) :
    extractTranscript artifact = "No transcription available" ∧
    (∃ it, ((transcriptionSuccess artifact recordId now store).1) recordId = some it
        ∧ it.status = some "transcription_completed"
        ∧ it.status ≠ some "failed"
        ∧ it.transcriptionText = some "No transcription available") ∧
    (transcriptionSuccess artifact recordId now store).2.transcriptionText
      = "No transcription available" := by
  have htext : extractTranscript artifact = "No transcription available" := by
    unfold hasNoTranscriptText at h
    unfold extractTranscript
    rcases artifact with ⟨results⟩
    cases results with
    | none => rfl
    | some r =>
      dsimp only at h ⊢
      cases hh : r.transcripts.head? with
      | none => rfl
      | some e =>
        rw [hh] at h
        rcases h with h | h <;> simp [h]
  refine ⟨htext, ⟨updTranscriptionCompleted (extractTranscript artifact) now
      ((store recordId).getD {}), ?_, rfl, ?_, ?_⟩, htext⟩
  · show (store.updateItem recordId
        (updTranscriptionCompleted (extractTranscript artifact) now)) recordId = _
    unfold Store.updateItem
    rw [if_pos rfl]
  · intro hc
    exact absurd (Option.some_injective _ hc) (by decide)
  · show some (extractTranscript artifact) = _
    rw [htext]

/-- Witness for `transcriptionHandler_missing_transcript_placeholder`: an
artifact whose `results` object is entirely absent. -/
theorem transcriptionHandler_missing_transcript_placeholder_witness :
    extractTranscript ⟨none⟩ = "No transcription available" ∧
    (∃ it, ((transcriptionSuccess ⟨none⟩ "rec1" "2024-01-01T00:00:00.000Z"
          (fun _ => none)).1) "rec1" = some it
        ∧ it.status = some "transcription_completed"
        ∧ it.status ≠ some "failed"
        ∧ it.transcriptionText = some "No transcription available") ∧
    (transcriptionSuccess ⟨none⟩ "rec1" "2024-01-01T00:00:00.000Z"
        (fun _ => none)).2.transcriptionText = "No transcription available" :=
  transcriptionHandler_missing_transcript_placeholder ⟨none⟩ "rec1"
    "2024-01-01T00:00:00.000Z" (fun _ => none) trivial

/-!
## Article-enhancement handler (`lambda/article-enhancement-handler/index.ts`)

The `while (retryCount < maxRetries)` loop (`maxRetries = 3`, line 100) is
modelled by structural recursion on `fuel`, the number of loop iterations the
guard still permits (`fuel = maxRetries - retryCount`); `runEnhancement`
enters with `fuel = 3, retryCount = 0`.  The fuel-exhausted base case is the
`statusCode 500` return after the loop, which is unreachable from the entry
state.  DynamoDB and the Lambda invocation of the email handler are assumed
available (their failure paths are the `fallbackError` catch, out of scope of
the claims about enhancement outcomes).
-/

/-- Outcome of one `InvokeModelCommand` call to Bedrock (an oracle indexed by
the attempt number); `ok` carries the generated text and the usage object,
`err` the thrown error's message. -/
inductive BedrockResult
  | ok (text usage : String)
  | err (msg : String)
  deriving DecidableEq, Repr

/-- The retryable-error classification of the enhancement handler
(lines 238–243). -/
def isRetryableError (msg : String) : Bool :=
  strContains msg "ThrottlingException" ||
  strContains msg "ServiceUnavailableException" ||
  strContains msg "InternalServerException" ||
  strContains msg "TooManyRequestsException"

/-- The `UpdateItem` at lines 106–120: `SET status = 'enhancing_article',
updatedAt` — unconditional, run at the top of every loop iteration. -/
def updEnhancing (now : String) (item : Item) : Item :=
  { item with status := some "enhancing_article", updatedAt := some now }

/-- The success `UpdateItem` at lines 173–190. -/
def updEnhanced (text usage now : String) (item : Item) : Item :=
  { item with
    status := some "article_enhanced",
    enhancedArticleText := some text,
    bedrockProcessedAt := some now,
    updatedAt := some now,
    bedrockTokenUsage := some usage }

/-- The error message recorded by the fallback path (line 263). -/
def enhancementFallbackMessage (msg : String) : String :=
  "Bedrock enhancement failed, using original transcription: " ++ msg

/-- The fallback `UpdateItem` at lines 251–267: `SET status =
'article_enhanced', errorMessage, updatedAt, retryCount` — note that it does
NOT set `enhancedArticleText`. -/
def updEnhancedFallback (msg now : String) (rc : Nat) (item : Item) : Item :=
  { item with
    status := some "article_enhanced",
    errorMessage := some (enhancementFallbackMessage msg),
    updatedAt := some now,
    retryCount := some rc }

/-- The payload passed to the email handler (lines 196–203 and 272–279). -/
structure EmailPayload where
  enhancedArticleText : String
  originalTranscription : String
  originalFileName : String
  timestamp : String
  recordId : String
  audioFileKey : String
  deriving DecidableEq, Repr

/-- Builds the email payload from the enhancement input and the content
chosen for delivery (the generated text on success, the original transcript
on fallback). -/
def payloadToEmail (p : EnhancementPayload) (content : String) : EmailPayload :=
  { enhancedArticleText := content,
    originalTranscription := p.transcriptionText,
    originalFileName := p.originalFileName,
    timestamp := p.timestamp,
    recordId := p.recordId,
    audioFileKey := p.audioFileKey }

/-- Result of one invocation of the enhancement handler: the final record
state, every record state written (in order), the email-handler invocation
issued (if any), the number of Bedrock calls made, the final `retryCount`
variable, and whether Bedrock succeeded. -/
structure EnhanceResult where
  item : Item
  writes : List Item
  emailCall : Option EmailPayload
  calls : Nat
  retryCount : Nat
  succeeded : Bool
  deriving DecidableEq, Repr

/-- The retry loop of the enhancement handler (lines 103–334). -/
def enhanceLoop (bedrock : Nat → BedrockResult) (p : EnhancementPayload)
    (now : String) : Nat → Nat → Item → EnhanceResult
  | 0, retry, item =>
    { item := item, writes := [], emailCall := none, calls := 0,
      retryCount := retry, succeeded := false }
  | fuel + 1, retry, item =>
    let item1 := updEnhancing now item
    match bedrock retry with
    | .ok text usage =>
      let item2 := updEnhanced text usage now item1
      { item := item2, writes := [item1, item2],
        emailCall := some (payloadToEmail p text), calls := 1,
        retryCount := retry, succeeded := true }
    | .err msg =>
      if 3 ≤ retry + 1 || !isRetryableError msg then
        let item2 := updEnhancedFallback msg now (retry + 1) item1
        { item := item2, writes := [item1, item2],
          emailCall := some (payloadToEmail p p.transcriptionText), calls := 1,
          retryCount := retry + 1, succeeded := false }
      else
        let r := enhanceLoop bedrock p now fuel (retry + 1) item1
        { r with writes := item1 :: r.writes, calls := r.calls + 1 }

/-- One invocation of the enhancement handler (`maxRetries = 3`,
`retryCount = 0` at entry). -/
def runEnhancement (bedrock : Nat → BedrockResult) (p : EnhancementPayload)
    (now : String) (item : Item) : EnhanceResult :=
  enhanceLoop bedrock p now 3 0 item

/-- The enhancement run fails: either every attempt up to the retry bound
fails with a retryable error, or the attempts fail with retryable errors
until some attempt `k` fails with a non-retryable one. -/
def enhancementRunFails (bedrock : Nat → BedrockResult) : Prop :=
  (∀ i, i < 3 → ∃ m, bedrock i = .err m ∧ isRetryableError m = true) ∨
  (∃ k, k < 3 ∧
    (∀ i, i < k → ∃ m, bedrock i = .err m ∧ isRetryableError m = true) ∧
    (∃ m, bedrock k = .err m ∧ isRetryableError m = false))

lemma enhancementFallbackMessage_ne_empty (m : String) :
    enhancementFallbackMessage m ≠ "" := by
  unfold enhancementFallbackMessage
  intro hc
  have hd := congrArg String.data hc
  simp [String.data_append] at hd

lemma enhanceLoop_fallback (bedrock : Nat → BedrockResult)
    (p : EnhancementPayload) (now : String) :
    ∀ fuel retry item, fuel + retry = 3 → retry < 3 →
      ((∀ i, retry ≤ i → i < 3 → ∃ m, bedrock i = .err m ∧ isRetryableError m = true) ∨
       (∃ k, retry ≤ k ∧ k < 3 ∧
         (∀ i, retry ≤ i → i < k → ∃ m, bedrock i = .err m ∧ isRetryableError m = true) ∧
         (∃ m, bedrock k = .err m ∧ isRetryableError m = false))) →
      (enhanceLoop bedrock p now fuel retry item).succeeded = false ∧
      (enhanceLoop bedrock p now fuel retry item).item.status = some "article_enhanced" ∧
      (∃ m, (enhanceLoop bedrock p now fuel retry item).item.errorMessage
          = some (enhancementFallbackMessage m)) ∧
      (enhanceLoop bedrock p now fuel retry item).item.enhancedArticleText
        = item.enhancedArticleText ∧
      (enhanceLoop bedrock p now fuel retry item).emailCall
        = some (payloadToEmail p p.transcriptionText) := by
  intro fuel
  induction fuel with
  | zero => intro retry item hinv hlt; omega
  | succ f ih =>
    intro retry item hinv hlt hfail
    rcases hfail with hall | ⟨k, hk1, hk2, hpre, m, hm, hret⟩
    · obtain ⟨m, hm, hret⟩ := hall retry le_rfl hlt
      simp only [enhanceLoop, hm]
      by_cases hr3 : 3 ≤ retry + 1
      · simp only [decide_eq_true hr3, Bool.true_or, if_true]
        refine ⟨?_, ?_, ⟨m, ?_⟩, ?_, ?_⟩ <;> trivial
      · simp only [decide_eq_false hr3, hret, Bool.not_true, Bool.or_false,
          Bool.false_eq_true, if_false]
        have hres := ih (retry + 1) (updEnhancing now item) (by omega) (by omega)
          (Or.inl fun i hi1 hi2 => hall i (by omega) hi2)
        exact ⟨hres.1, hres.2.1, hres.2.2.1, hres.2.2.2.1, hres.2.2.2.2⟩
    · by_cases hkr : k = retry
      · subst hkr
        simp only [enhanceLoop, hm]
        simp only [hret, Bool.not_false, Bool.or_true, if_true]
        refine ⟨?_, ?_, ⟨m, ?_⟩, ?_, ?_⟩ <;> trivial
      · have hklt : retry < k := lt_of_le_of_ne hk1 (Ne.symm hkr)
        obtain ⟨m0, hm0, hret0⟩ := hpre retry le_rfl hklt
        have hr3 : ¬ 3 ≤ retry + 1 := by omega
        simp only [enhanceLoop, hm0, decide_eq_false hr3, hret0, Bool.not_true,
          Bool.or_false, Bool.false_eq_true, if_false]
        have hres := ih (retry + 1) (updEnhancing now item) (by omega) (by omega)
          (Or.inr ⟨k, by omega, hk2, fun i hi1 hi2 => hpre i (by omega) hi2,
            m, hm, hret⟩)
        exact ⟨hres.1, hres.2.1, hres.2.2.1, hres.2.2.2.1, hres.2.2.2.2⟩

/-- C3 (amended): when the enhancement run fails — all attempts up to the
retry bound fail with retryable errors, or some attempt fails with a
non-retryable error — the record is set to `status = 'article_enhanced'`
with a non-empty `errorMessage` describing the enhancement failure, and the
email handler is still invoked with the original transcript as content;
however the record's `enhancedArticleText` attribute is left unchanged (the
fallback update does not set it to the transcript). -/
theorem enhancementHandler_fallback_degraded_success
    (bedrock : Nat → BedrockResult) (p : EnhancementPayload) (now : String)
    (item : Item) (h : enhancementRunFails bedrock) :
    (runEnhancement bedrock p now item).item.status = some "article_enhanced" ∧
    (∃ e, (runEnhancement bedrock p now item).item.errorMessage = some e ∧ e ≠ "") ∧
    (runEnhancement bedrock p now item).emailCall
      = some (payloadToEmail p p.transcriptionText) ∧
    (runEnhancement bedrock p now item).item.enhancedArticleText
      = item.enhancedArticleText := by
  have hrel : (∀ i, 0 ≤ i → i < 3 → ∃ m, bedrock i = .err m ∧ isRetryableError m = true) ∨
      (∃ k, 0 ≤ k ∧ k < 3 ∧
        (∀ i, 0 ≤ i → i < k → ∃ m, bedrock i = .err m ∧ isRetryableError m = true) ∧
        (∃ m, bedrock k = .err m ∧ isRetryableError m = false)) := by
    rcases h with h | ⟨k, hk, hpre, hm⟩
    · exact Or.inl fun i _ hi => h i hi
    · exact Or.inr ⟨k, Nat.zero_le k, hk, fun i _ hi => hpre i hi, hm⟩
  have hres := enhanceLoop_fallback bedrock p now 3 0 item rfl (by omega) hrel
  obtain ⟨m, hmsg⟩ := hres.2.2.1
  exact ⟨hres.2.1, ⟨enhancementFallbackMessage m, hmsg,
    enhancementFallbackMessage_ne_empty m⟩, hres.2.2.2.2, hres.2.2.2.1⟩

/-- Counterexample for C3 as stated: a non-retryable enhancement failure on a
fresh record leaves `enhancedArticleText` absent — the fallback update does
not write the transcript into the record, so `enhancedContent` does not equal
the transcript (the transcript travels to delivery only inside the email
payload). -/
theorem enhancement_fallback_counterexample :
    (runEnhancement (fun _ => BedrockResult.err "ValidationException")
        ⟨"hello world", "voice.mp3", "t0", "rec1", "audio/voice.mp3"⟩
        "t1" {}).item.status = some "article_enhanced" ∧
    (runEnhancement (fun _ => BedrockResult.err "ValidationException")
        ⟨"hello world", "voice.mp3", "t0", "rec1", "audio/voice.mp3"⟩
        "t1" {}).item.enhancedArticleText = none ∧
    ¬ (runEnhancement (fun _ => BedrockResult.err "ValidationException")
        ⟨"hello world", "voice.mp3", "t0", "rec1", "audio/voice.mp3"⟩
        "t1" {}).item.enhancedArticleText = some "hello world" ∧
    (runEnhancement (fun _ => BedrockResult.err "ValidationException")
        ⟨"hello world", "voice.mp3", "t0", "rec1", "audio/voice.mp3"⟩
        "t1" {}).emailCall
      = some ⟨"hello world", "hello world", "voice.mp3", "t0", "rec1",
          "audio/voice.mp3"⟩ := by
  decide

/-- Witness for `enhancementHandler_fallback_degraded_success`: a
non-retryable validation error on the first attempt. -/
theorem enhancementHandler_fallback_degraded_success_witness :
    (runEnhancement (fun _ => BedrockResult.err "ValidationException")
        ⟨"hello world", "voice.mp3", "t0", "rec1", "audio/voice.mp3"⟩
        "t1" {}).item.status = some "article_enhanced" ∧
    (∃ e, (runEnhancement (fun _ => BedrockResult.err "ValidationException")
        ⟨"hello world", "voice.mp3", "t0", "rec1", "audio/voice.mp3"⟩
        "t1" {}).item.errorMessage = some e ∧ e ≠ "") ∧
    (runEnhancement (fun _ => BedrockResult.err "ValidationException")
        ⟨"hello world", "voice.mp3", "t0", "rec1", "audio/voice.mp3"⟩
        "t1" {}).emailCall
      = some (payloadToEmail
          ⟨"hello world", "voice.mp3", "t0", "rec1", "audio/voice.mp3"⟩
          "hello world") ∧
    (runEnhancement (fun _ => BedrockResult.err "ValidationException")
        ⟨"hello world", "voice.mp3", "t0", "rec1", "audio/voice.mp3"⟩
        "t1" {}).item.enhancedArticleText = (({} : Item)).enhancedArticleText :=
  enhancementHandler_fallback_degraded_success
    (fun _ => BedrockResult.err "ValidationException")
    ⟨"hello world", "voice.mp3", "t0", "rec1", "audio/voice.mp3"⟩ "t1" {}
    (Or.inr ⟨0, by omega, fun i hi => absurd hi (by omega),
      ⟨"ValidationException", rfl, by decide⟩⟩)

lemma enhanceLoop_calls_pos (bedrock : Nat → BedrockResult)
    (p : EnhancementPayload) (now : String) :
    ∀ fuel retry item, 1 ≤ fuel →
      1 ≤ (enhanceLoop bedrock p now fuel retry item).calls := by
  intro fuel retry item hf
  cases fuel with
  | zero => omega
  | succ f =>
    simp only [enhanceLoop]
    cases bedrock retry with
    | ok text usage => simp
    | err msg =>
      dsimp only
      split
      · simp
      · simp

/-- C7: after a failed enhancement attempt the handler performs another
Bedrock call if and only if the error message is classified as retryable,
i.e. mentions `ThrottlingException`, `ServiceUnavailableException`,
`InternalServerException` or `TooManyRequestsException`; any other error
short-circuits to the fallback with no further generation attempts. -/
theorem enhancementHandler_retries_only_classified
    (bedrock : Nat → BedrockResult) (p : EnhancementPayload) (now : String)
    (item : Item) (m : String) (h : bedrock 0 = BedrockResult.err m) :
    2 ≤ (runEnhancement bedrock p now item).calls ↔
      (strContains m "ThrottlingException" = true ∨
       strContains m "ServiceUnavailableException" = true ∨
       strContains m "InternalServerException" = true ∨
       strContains m "TooManyRequestsException" = true) := by
  have hiff : (isRetryableError m = true) ↔
      (strContains m "ThrottlingException" = true ∨
       strContains m "ServiceUnavailableException" = true ∨
       strContains m "InternalServerException" = true ∨
       strContains m "TooManyRequestsException" = true) := by
    simp [isRetryableError, Bool.or_eq_true, or_assoc]
  rw [← hiff]
  unfold runEnhancement
  have h3 : (3 : Nat) = 2 + 1 := rfl
  rw [h3]
  simp only [enhanceLoop, h]
  by_cases hret : isRetryableError m = true
  · simp only [hret, Bool.not_true, Bool.or_false, decide_eq_false
      (show ¬ 3 ≤ 0 + 1 by omega), Bool.false_eq_true, if_false, iff_true]
    have := enhanceLoop_calls_pos bedrock p now 2 1 (updEnhancing now item) (by omega)
    show 2 ≤ (enhanceLoop bedrock p now 2 1 (updEnhancing now item)).calls + 1
    omega
  · have hretf : isRetryableError m = false := by
      cases hb : isRetryableError m
      · rfl
      · exact absurd hb hret
    simp only [hretf, Bool.not_false, Bool.or_true, if_true]
    constructor
    · intro hc
      exact absurd (by decide : ¬ (2 : Nat) ≤ 1) (fun hn => hn hc)
    · intro hc
      exact absurd hc (by simp [hretf])

/-- Witness for `enhancementHandler_retries_only_classified`: a throttling
error on the first attempt is retried (a second Bedrock call happens). -/
theorem enhancementHandler_retries_only_classified_witness :
    2 ≤ (runEnhancement
        (fun i => if i = 0 then BedrockResult.err "ThrottlingException: slow down"
                  else BedrockResult.ok "<h1>Artikel</h1>" "usage")
        ⟨"hello world", "voice.mp3", "t0", "rec1", "audio/voice.mp3"⟩
        "t1" {}).calls :=
  (enhancementHandler_retries_only_classified
      (fun i => if i = 0 then BedrockResult.err "ThrottlingException: slow down"
                else BedrockResult.ok "<h1>Artikel</h1>" "usage")
      ⟨"hello world", "voice.mp3", "t0", "rec1", "audio/voice.mp3"⟩
      "t1" {} "ThrottlingException: slow down" (by decide)).mpr
    (Or.inl (by decide))

/-!
## Email (delivery) handler (`lambda/email-handler/index.ts`)

Same loop shape as the enhancement handler (`maxRetries = 3`, line 43), again
modelled by fuel recursion.  The catch block (lines 220–258) retries on
*every* error — it contains no retryable-error classification — and writes
the terminal failure update only once `retryCount >= maxRetries`.
-/

/-- Outcome of one `SendEmailCommand` call (oracle indexed by attempt);
`ok` carries `result.MessageId` (which may be absent). -/
inductive SesResult
  | ok (messageId : Option String)
  | err (msg : String)
  deriving DecidableEq, Repr

/-- `result.MessageId || 'unknown'` (line 204); JavaScript `||` also replaces
an empty string. -/
def normalizeMessageId : Option String → String
  | some m => if m = "" then "unknown" else m
  | none => "unknown"

/-- The success `UpdateItem` at lines 190–206: `SET status = 'email_sent',
emailSentAt, updatedAt, emailMessageId`. -/
def updEmailSent (mid : Option String) (now : String) (item : Item) : Item :=
  { item with
    status := some "email_sent",
    emailSentAt := some now,
    updatedAt := some now,
    emailMessageId := some (normalizeMessageId mid) }

/-- The terminal-failure `UpdateItem` at lines 227–243: `SET status =
'failed', errorMessage, updatedAt, retryCount`.  No `completedAt` attribute
appears anywhere in the handler (or in the repository). -/
def updDeliveryFailed (msg now : String) (rc : Nat) (item : Item) : Item :=
  { item with
    status := some "failed",
    errorMessage := some msg,
    updatedAt := some now,
    retryCount := some rc }

/-- Result of one invocation of the email handler. -/
structure EmailRunResult where
  item : Item
  writes : List Item
  calls : Nat
  retryCount : Nat
  succeeded : Bool
  threw : Bool
  deriving DecidableEq, Repr

/-- The retry loop of the email handler (lines 46–259): every thrown error
increments `retryCount` and is retried after a backoff wait until
`retryCount >= 3`, at which point the record is marked `failed` and the
error is rethrown (`threw`); there is no error classification. -/
def emailLoop (ses : Nat → SesResult) (now : String) :
    Nat → Nat → Item → EmailRunResult
  | 0, retry, item =>
    { item := item, writes := [], calls := 0, retryCount := retry,
      succeeded := false, threw := false }
  | fuel + 1, retry, item =>
    match ses retry with
    | .ok mid =>
      let item1 := updEmailSent mid now item
      { item := item1, writes := [item1], calls := 1, retryCount := retry,
        succeeded := true, threw := false }
    | .err msg =>
      if 3 ≤ retry + 1 then
        let item1 := updDeliveryFailed msg now (retry + 1) item
        { item := item1, writes := [item1], calls := 1, retryCount := retry + 1,
          succeeded := false, threw := true }
      else
        let r := emailLoop ses now fuel (retry + 1) item
        { r with calls := r.calls + 1 }

/-- One invocation of the email handler (`maxRetries = 3`, `retryCount = 0`
at entry). -/
def runEmailHandler (ses : Nat → SesResult) (now : String) (item : Item) :
    EmailRunResult :=
  emailLoop ses now 3 0 item

/-- Counterexample for C4 as stated: a delivery error that is non-retryable
under the only classification in the codebase (the enhancement handler's
`isRetryableError`) is nonetheless retried — the handler makes all three
send attempts instead of failing immediately after the first. -/
theorem delivery_no_classification_counterexample :
    isRetryableError "Email address is not verified" = false ∧
    (runEmailHandler (fun _ => SesResult.err "Email address is not verified")
        "t1" {}).calls = 3 ∧
    ¬ (runEmailHandler (fun _ => SesResult.err "Email address is not verified")
        "t1" {}).calls = 1 := by
  decide

/-- C4 (amended): the delivery stage retries every error — it performs no
retryable/permanent classification — with exponential backoff between
attempts, up to 3 attempts in total; only when all 3 attempts have failed is
the record made terminal with `status = 'failed'`, `retryCount = 3` and the
last error message, and the error rethrown. -/
theorem deliveryHandler_retries_every_error (ses : Nat → SesResult)
    (now : String) (item : Item)
    (h : ∀ i, i < 3 → ∃ m, ses i = SesResult.err m) :
    (runEmailHandler ses now item).calls = 3 ∧
    (runEmailHandler ses now item).item.status = some "failed" ∧
    (runEmailHandler ses now item).item.retryCount = some 3 ∧
    (runEmailHandler ses now item).item.errorMessage ≠ none ∧
    (runEmailHandler ses now item).threw = true := by
  obtain ⟨m0, h0⟩ := h 0 (by omega)
  obtain ⟨m1, h1⟩ := h 1 (by omega)
  obtain ⟨m2, h2⟩ := h 2 (by omega)
  simp [runEmailHandler, emailLoop, h0, h1, h2, updDeliveryFailed]

/-- Witness for `deliveryHandler_retries_every_error`. -/
theorem deliveryHandler_retries_every_error_witness :
    (runEmailHandler (fun _ => SesResult.err "Throttling") "t1" {}).calls = 3 ∧
    (runEmailHandler (fun _ => SesResult.err "Throttling") "t1" {}).item.status
      = some "failed" ∧
    (runEmailHandler (fun _ => SesResult.err "Throttling") "t1" {}).item.retryCount
      = some 3 ∧
    (runEmailHandler (fun _ => SesResult.err "Throttling") "t1" {}).item.errorMessage
      ≠ none ∧
    (runEmailHandler (fun _ => SesResult.err "Throttling") "t1" {}).threw = true :=
  deliveryHandler_retries_every_error (fun _ => SesResult.err "Throttling") "t1" {}
    (fun _ _ => ⟨"Throttling", rfl⟩)

lemma emailLoop_completedAt (ses : Nat → SesResult) (now : String) :
    ∀ fuel retry item, item.completedAt = none →
      (emailLoop ses now fuel retry item).item.completedAt = none ∧
      ∀ w ∈ (emailLoop ses now fuel retry item).writes, w.completedAt = none := by
  intro fuel
  induction fuel with
  | zero =>
    intro retry item h
    exact ⟨h, by intro w hw; simp [emailLoop] at hw⟩
  | succ f ih =>
    intro retry item h
    simp only [emailLoop]
    cases ses retry with
    | ok mid =>
      refine ⟨h, ?_⟩
      intro w hw
      simp only [List.mem_singleton] at hw
      rw [hw]
      exact h
    | err msg =>
      dsimp only
      split
      · refine ⟨h, ?_⟩
        intro w hw
        simp only [List.mem_singleton] at hw
        rw [hw]
        exact h
      · exact ih (retry + 1) item h

lemma emailLoop_threw_failed (ses : Nat → SesResult) (now : String) :
    ∀ fuel retry item, (emailLoop ses now fuel retry item).threw = true →
      (emailLoop ses now fuel retry item).item.status = some "failed" ∧
      (emailLoop ses now fuel retry item).item.retryCount
        = some ((emailLoop ses now fuel retry item).retryCount) ∧
      (emailLoop ses now fuel retry item).retryCount
        = retry + (emailLoop ses now fuel retry item).calls ∧
      (emailLoop ses now fuel retry item).item.errorMessage ≠ none := by
  intro fuel
  induction fuel with
  | zero => intro retry item h; exact absurd h (by simp [emailLoop])
  | succ f ih =>
    intro retry item h
    cases hses : ses retry with
    | ok mid =>
      have hL : emailLoop ses now (f + 1) retry item
          = { item := updEmailSent mid now item,
              writes := [updEmailSent mid now item], calls := 1,
              retryCount := retry, succeeded := true, threw := false } := by
        simp only [emailLoop, hses]
      rw [hL] at h
      exact absurd h (by simp)
    | err msg =>
      by_cases h3 : 3 ≤ retry + 1
      · have hL : emailLoop ses now (f + 1) retry item
            = { item := updDeliveryFailed msg now (retry + 1) item,
                writes := [updDeliveryFailed msg now (retry + 1) item],
                calls := 1, retryCount := retry + 1, succeeded := false,
                threw := true } := by
          simp only [emailLoop, hses]
          rw [if_pos h3]
        rw [hL]
        exact ⟨rfl, rfl, rfl, by simp [updDeliveryFailed]⟩
      · have hL : emailLoop ses now (f + 1) retry item
            = { emailLoop ses now f (retry + 1) item with
                calls := (emailLoop ses now f (retry + 1) item).calls + 1 } := by
          simp only [emailLoop, hses]
          rw [if_neg h3]
        rw [hL] at h ⊢
        have hr := ih (retry + 1) item h
        refine ⟨hr.1, hr.2.1, ?_, hr.2.2.2⟩
        show (emailLoop ses now f (retry + 1) item).retryCount
            = retry + ((emailLoop ses now f (retry + 1) item).calls + 1)
        have h21 := hr.2.2.1
        omega

lemma emailLoop_succeeded_sentAt (ses : Nat → SesResult) (now : String) :
    ∀ fuel retry item, (emailLoop ses now fuel retry item).succeeded = true →
      (emailLoop ses now fuel retry item).item.status = some "email_sent" ∧
      (emailLoop ses now fuel retry item).item.emailSentAt = some now := by
  intro fuel
  induction fuel with
  | zero => intro retry item h; exact absurd h (by simp [emailLoop])
  | succ f ih =>
    intro retry item h
    cases hses : ses retry with
    | ok mid =>
      have hL : emailLoop ses now (f + 1) retry item
          = { item := updEmailSent mid now item,
              writes := [updEmailSent mid now item], calls := 1,
              retryCount := retry, succeeded := true, threw := false } := by
        simp only [emailLoop, hses]
      rw [hL]
      exact ⟨rfl, rfl⟩
    | err msg =>
      by_cases h3 : 3 ≤ retry + 1
      · have hL : emailLoop ses now (f + 1) retry item
            = { item := updDeliveryFailed msg now (retry + 1) item,
                writes := [updDeliveryFailed msg now (retry + 1) item],
                calls := 1, retryCount := retry + 1, succeeded := false,
                threw := true } := by
          simp only [emailLoop, hses]
          rw [if_pos h3]
        rw [hL] at h
        exact absurd h (by simp)
      · have hL : emailLoop ses now (f + 1) retry item
            = { emailLoop ses now f (retry + 1) item with
                calls := (emailLoop ses now f (retry + 1) item).calls + 1 } := by
          simp only [emailLoop, hses]
          rw [if_neg h3]
        rw [hL] at h ⊢
        exact ih (retry + 1) item h

/-- C5 (amended): no handler ever writes a `completedAt` attribute.  The
email handler leaves `completedAt` absent on every path; when delivery
exhausts its retries it writes `status = 'failed'` together with the error
message and `retryCount` equal to the attempts made — but no completion
timestamp; on success it writes `emailSentAt` (again not `completedAt`). -/
theorem emailHandler_never_writes_completedAt (ses : Nat → SesResult)
    (now : String) (item : Item) (h : item.completedAt = none) :
    (runEmailHandler ses now item).item.completedAt = none ∧
    (∀ w ∈ (runEmailHandler ses now item).writes, w.completedAt = none) ∧
    ((runEmailHandler ses now item).threw = true →
      (runEmailHandler ses now item).item.status = some "failed" ∧
      (runEmailHandler ses now item).item.retryCount
        = some ((runEmailHandler ses now item).calls) ∧
      (runEmailHandler ses now item).item.errorMessage ≠ none) ∧
    ((runEmailHandler ses now item).succeeded = true →
      (runEmailHandler ses now item).item.status = some "email_sent" ∧
      (runEmailHandler ses now item).item.emailSentAt = some now) := by
  have hc := emailLoop_completedAt ses now 3 0 item h
  refine ⟨hc.1, hc.2, ?_, ?_⟩
  · intro ht
    have hr := emailLoop_threw_failed ses now 3 0 item ht
    have hcalls : (runEmailHandler ses now item).retryCount
        = (runEmailHandler ses now item).calls := by
      have h21 := hr.2.2.1
      show (emailLoop ses now 3 0 item).retryCount = (emailLoop ses now 3 0 item).calls
      omega
    exact ⟨hr.1, by rw [← hcalls]; exact hr.2.1, hr.2.2.2⟩
  · exact emailLoop_succeeded_sentAt ses now 3 0 item

/-- Witness for `emailHandler_never_writes_completedAt`. -/
theorem emailHandler_never_writes_completedAt_witness :
    (runEmailHandler (fun _ => SesResult.err "SES send failed") "t1" {}).item.completedAt
        = none ∧
    (∀ w ∈ (runEmailHandler (fun _ => SesResult.err "SES send failed") "t1" {}).writes,
      w.completedAt = none) ∧
    ((runEmailHandler (fun _ => SesResult.err "SES send failed") "t1" {}).threw = true →
      (runEmailHandler (fun _ => SesResult.err "SES send failed") "t1" {}).item.status
          = some "failed" ∧
      (runEmailHandler (fun _ => SesResult.err "SES send failed") "t1" {}).item.retryCount
        = some ((runEmailHandler (fun _ => SesResult.err "SES send failed") "t1" {}).calls) ∧
      (runEmailHandler (fun _ => SesResult.err "SES send failed") "t1" {}).item.errorMessage
        ≠ none) ∧
    ((runEmailHandler (fun _ => SesResult.err "SES send failed") "t1" {}).succeeded = true →
      (runEmailHandler (fun _ => SesResult.err "SES send failed") "t1" {}).item.status
          = some "email_sent" ∧
      (runEmailHandler (fun _ => SesResult.err "SES send failed") "t1" {}).item.emailSentAt
        = some "t1") :=
  emailHandler_never_writes_completedAt (fun _ => SesResult.err "SES send failed")
    "t1" {} rfl

/-- Counterexample for C5 as stated: a delivery run that exhausts its retries
marks the record `failed` yet leaves `completedAt` absent — `completedAt` is
set for no status at all (no handler in the repository writes it), so
"`completedAt` is set if and only if `status ∈ {delivered, failed}`" fails in
the only-if-to-if direction at this record. -/
theorem delivery_failure_completedAt_counterexample :
    (runEmailHandler (fun _ => SesResult.err "SES send failed") "t1" {}).item.status
      = some "failed" ∧
    (runEmailHandler (fun _ => SesResult.err "SES send failed") "t1" {}).item.completedAt
      = none := by
  decide

/-!
## Status monotonicity across the pipeline (spec order
`uploaded < transcribing < transcribed < enhancing < enhanced
< {delivered, failed}`)
-/

/-- Rank of a record's status (absent status ranks lowest). -/
def itemRank (it : Item) : Nat :=
  statusRank (it.status.getD "")

/-- Non-decreasing status rank between two consecutively written records. -/
def rankLe (a b : Item) : Prop :=
  itemRank a ≤ itemRank b

/-- A store holding one record that the pipeline has already advanced to
`article_enhanced`. -/
def alreadyEnhancedStore : Store :=
  fun id => if id = "rec1" then some { status := some "article_enhanced" } else none

/-- Counterexample for C2 as stated: the transcription-completion handler's
success update is unconditional — it never reads the record's current status
— so re-invoking it for a record already at `article_enhanced` overwrites
the later status with the earlier `transcription_completed`, a regression
rather than a no-op. -/
theorem status_regression_counterexample :
    ∃ it, (transcriptionSuccess ⟨some ⟨[⟨some "hello"⟩]⟩⟩ "rec1" "t9"
        alreadyEnhancedStore).1 "rec1" = some it ∧
      it.status = some "transcription_completed" ∧
      statusRank "transcription_completed" < statusRank "article_enhanced" ∧
      some it ≠ alreadyEnhancedStore "rec1" :=
  ⟨_, rfl, rfl, by decide, by decide⟩

/-- The record states written, in order, by one in-order execution of the
whole pipeline for a single submission: ingestion (insert `uploaded`, update
to `transcribing`), then — according to the transcription job outcome
`jobOk` — either the failure update, or the unconditional
`transcription_completed` update followed by the enhancement stage's writes
and the delivery stage's writes. -/
def pipelineWrites (objectKey now : String) (ts : Nat) (jobOk : Bool)
    (artifact : TranscriptArtifact) (bedrock : Nat → BedrockResult)
    (ses : Nat → SesResult) (p : EnhancementPayload) : List Item :=
  let i0 := newUploadItem objectKey now
  let i1 := updTranscribing (transcribeJobNameOf (extractRecordId objectKey) ts) now i0
  if jobOk then
    let i2 := updTranscriptionCompleted (extractTranscript artifact) now i1
    let enh := runEnhancement bedrock p now i2
    [i0, i1, i2] ++ enh.writes ++ (runEmailHandler ses now enh.item).writes
  else
    [i0, i1, updFailed "Transcription job failed" now i1]

lemma enhanceLoop_writes_status (bedrock : Nat → BedrockResult)
    (p : EnhancementPayload) (now : String) :
    ∀ fuel retry item, ∀ w ∈ (enhanceLoop bedrock p now fuel retry item).writes,
      w.status = some "enhancing_article" ∨ w.status = some "article_enhanced" := by
  intro fuel
  induction fuel with
  | zero =>
    intro retry item w hw
    exact absurd hw (List.not_mem_nil w)
  | succ f ih =>
    intro retry item w hw
    cases hb : bedrock retry with
    | ok text usage =>
      have hL : (enhanceLoop bedrock p now (f + 1) retry item).writes
          = [updEnhancing now item,
             updEnhanced text usage now (updEnhancing now item)] := by
        simp only [enhanceLoop, hb]
      rw [hL] at hw
      simp only [List.mem_cons, List.not_mem_nil, or_false] at hw
      rcases hw with hw | hw
      · exact Or.inl (by rw [hw]; rfl)
      · exact Or.inr (by rw [hw]; rfl)
    | err msg =>
      by_cases h3 : (3 ≤ retry + 1 || !isRetryableError msg) = true
      · have hL : (enhanceLoop bedrock p now (f + 1) retry item).writes
            = [updEnhancing now item,
               updEnhancedFallback msg now (retry + 1) (updEnhancing now item)] := by
          simp only [enhanceLoop, hb]
          rw [if_pos h3]
        rw [hL] at hw
        simp only [List.mem_cons, List.not_mem_nil, or_false] at hw
        rcases hw with hw | hw
        · exact Or.inl (by rw [hw]; rfl)
        · exact Or.inr (by rw [hw]; rfl)
      · have hL : (enhanceLoop bedrock p now (f + 1) retry item).writes
            = updEnhancing now item ::
              (enhanceLoop bedrock p now f (retry + 1) (updEnhancing now item)).writes := by
          simp only [enhanceLoop, hb]
          rw [if_neg h3]
        rw [hL] at hw
        rcases List.mem_cons.mp hw with hw | hw
        · exact Or.inl (by rw [hw]; rfl)
        · exact ih (retry + 1) (updEnhancing now item) w hw

lemma enhanceLoop_writes_chain (bedrock : Nat → BedrockResult)
    (p : EnhancementPayload) (now : String) :
    ∀ fuel retry item,
      List.Chain' rankLe (enhanceLoop bedrock p now fuel retry item).writes := by
  intro fuel
  induction fuel with
  | zero =>
    intro retry item
    exact List.chain'_nil
  | succ f ih =>
    intro retry item
    cases hb : bedrock retry with
    | ok text usage =>
      have hL : (enhanceLoop bedrock p now (f + 1) retry item).writes
          = [updEnhancing now item,
             updEnhanced text usage now (updEnhancing now item)] := by
        simp only [enhanceLoop, hb]
      rw [hL]
      refine List.chain'_cons.mpr ⟨?_, List.chain'_singleton _⟩
      show statusRank "enhancing_article" ≤ statusRank "article_enhanced"
      decide
    | err msg =>
      by_cases h3 : (3 ≤ retry + 1 || !isRetryableError msg) = true
      · have hL : (enhanceLoop bedrock p now (f + 1) retry item).writes
            = [updEnhancing now item,
               updEnhancedFallback msg now (retry + 1) (updEnhancing now item)] := by
          simp only [enhanceLoop, hb]
          rw [if_pos h3]
        rw [hL]
        refine List.chain'_cons.mpr ⟨?_, List.chain'_singleton _⟩
        show statusRank "enhancing_article" ≤ statusRank "article_enhanced"
        decide
      · have hL : (enhanceLoop bedrock p now (f + 1) retry item).writes
            = updEnhancing now item ::
              (enhanceLoop bedrock p now f (retry + 1) (updEnhancing now item)).writes := by
          simp only [enhanceLoop, hb]
          rw [if_neg h3]
        rw [hL]
        refine List.chain'_cons'.mpr ⟨?_, ih (retry + 1) (updEnhancing now item)⟩
        intro b hb'
        have hbmem := List.mem_of_mem_head? hb'
        rcases enhanceLoop_writes_status bedrock p now f (retry + 1)
            (updEnhancing now item) b hbmem with hs | hs <;>
          · show statusRank "enhancing_article" ≤ statusRank (b.status.getD "")
            rw [hs]
            decide

lemma emailLoop_writes_status (ses : Nat → SesResult) (now : String) :
    ∀ fuel retry item, ∀ w ∈ (emailLoop ses now fuel retry item).writes,
      w.status = some "email_sent" ∨ w.status = some "failed" := by
  intro fuel
  induction fuel with
  | zero =>
    intro retry item w hw
    exact absurd hw (List.not_mem_nil w)
  | succ f ih =>
    intro retry item w hw
    cases hb : ses retry with
    | ok mid =>
      have hL : (emailLoop ses now (f + 1) retry item).writes
          = [updEmailSent mid now item] := by
        simp only [emailLoop, hb]
      rw [hL] at hw
      simp only [List.mem_singleton] at hw
      exact Or.inl (by rw [hw]; rfl)
    | err msg =>
      by_cases h3 : 3 ≤ retry + 1
      · have hL : (emailLoop ses now (f + 1) retry item).writes
            = [updDeliveryFailed msg now (retry + 1) item] := by
          simp only [emailLoop, hb]
          rw [if_pos h3]
        rw [hL] at hw
        simp only [List.mem_singleton] at hw
        exact Or.inr (by rw [hw]; rfl)
      · have hL : (emailLoop ses now (f + 1) retry item).writes
            = (emailLoop ses now f (retry + 1) item).writes := by
          simp only [emailLoop, hb]
          rw [if_neg h3]
        rw [hL] at hw
        exact ih (retry + 1) item w hw

lemma emailLoop_writes_chain (ses : Nat → SesResult) (now : String) :
    ∀ fuel retry item,
      List.Chain' rankLe (emailLoop ses now fuel retry item).writes := by
  intro fuel
  induction fuel with
  | zero =>
    intro retry item
    exact List.chain'_nil
  | succ f ih =>
    intro retry item
    cases hb : ses retry with
    | ok mid =>
      have hL : (emailLoop ses now (f + 1) retry item).writes
          = [updEmailSent mid now item] := by
        simp only [emailLoop, hb]
      rw [hL]
      exact List.chain'_singleton _
    | err msg =>
      by_cases h3 : 3 ≤ retry + 1
      · have hL : (emailLoop ses now (f + 1) retry item).writes
            = [updDeliveryFailed msg now (retry + 1) item] := by
          simp only [emailLoop, hb]
          rw [if_pos h3]
        rw [hL]
        exact List.chain'_singleton _
      · have hL : (emailLoop ses now (f + 1) retry item).writes
            = (emailLoop ses now f (retry + 1) item).writes := by
          simp only [emailLoop, hb]
          rw [if_neg h3]
        rw [hL]
        exact ih (retry + 1) item

/-- C2 (amended): within a single in-order execution of the pipeline — each
stage invoked once by its predecessor, for any transcription outcome and any
behaviour of the Bedrock and SES oracles — the sequence of record states
written to the table has non-decreasing status rank in the order
`uploaded < transcribing < transcription_completed < enhancing_article
< article_enhanced < {email_sent, failed}`.  (The stages after ingestion
write their statuses unconditionally, so — as the counterexample shows — a
handler re-invoked on a record that has already advanced past its target
status overwrites the later status with its own earlier one; monotonicity
holds for the in-order execution, not under re-invocation.) -/
theorem pipeline_in_order_status_monotone (objectKey now : String) (ts : Nat)
    (jobOk : Bool) (artifact : TranscriptArtifact)
    (bedrock : Nat → BedrockResult) (ses : Nat → SesResult)
    (p : EnhancementPayload) :
    List.Chain' rankLe (pipelineWrites objectKey now ts jobOk artifact bedrock ses p) := by
  unfold pipelineWrites
  cases jobOk with
  | false =>
    rw [if_neg (by simp)]
    refine List.chain'_cons.mpr ⟨?_, List.chain'_cons.mpr ⟨?_, List.chain'_singleton _⟩⟩
    · show statusRank "uploaded" ≤ statusRank "transcribing"
      decide
    · show statusRank "transcribing" ≤ statusRank "failed"
      decide
  | true =>
    rw [if_pos rfl]
    simp only [List.cons_append, List.nil_append]
    refine List.chain'_cons.mpr ⟨?_, ?_⟩
    · show statusRank "uploaded" ≤ statusRank "transcribing"
      decide
    refine List.chain'_cons.mpr ⟨?_, ?_⟩
    · show statusRank "transcribing" ≤ statusRank "transcription_completed"
      decide
    refine List.chain'_cons'.mpr ⟨?_, ?_⟩
    · intro b hb
      have hbmem := List.mem_of_mem_head? hb
      rcases List.mem_append.mp hbmem with hmem | hmem
      · rcases enhanceLoop_writes_status bedrock p now 3 0 _ b hmem with hs | hs <;>
          · show statusRank "transcription_completed" ≤ statusRank (b.status.getD "")
            rw [hs]
            decide
      · rcases emailLoop_writes_status ses now 3 0 _ b hmem with hs | hs <;>
          · show statusRank "transcription_completed" ≤ statusRank (b.status.getD "")
            rw [hs]
            decide
    refine List.chain'_append.mpr ⟨enhanceLoop_writes_chain bedrock p now 3 0 _,
      emailLoop_writes_chain ses now 3 0 _, ?_⟩
    intro x hx y hy
    have hxmem := List.mem_of_mem_getLast? hx
    have hymem := List.mem_of_mem_head? hy
    rcases enhanceLoop_writes_status bedrock p now 3 0 _ x hxmem with hs | hs <;>
      rcases emailLoop_writes_status ses now 3 0 _ y hymem with ht | ht <;>
        · show statusRank (x.status.getD "") ≤ statusRank (y.status.getD "")
          rw [hs, ht]
          decide

/-- C6: the status handler derives progress and description purely as a
function of `status` (both are functions of the status string by
construction); every progress value lies in `[0,1]`; progress is
non-decreasing along the status order
`uploaded < transcribing < transcription_completed < enhancing_article
< article_enhanced < email_sent`; progress equals `1` if and only if the
status is `email_sent` (delivered); and a `failed` record reports
progress `0`. -/
theorem statusHandler_progress_correct :
    (∀ s : String, 0 ≤ progressOf s ∧ progressOf s ≤ 1) ∧
    List.Chain' (fun a b => progressOf a ≤ progressOf b) pipelineOrder ∧
    (∀ s : String, progressOf s = 1 ↔ s = "email_sent") ∧
    progressOf "failed" = 0 := by
  refine ⟨?_, ?_, ?_, ?_⟩
  · intro s
    unfold progressOf
    split_ifs <;> norm_num
  · simp only [pipelineOrder, List.chain'_cons, List.chain'_singleton, and_true]
    refine ⟨?_, ?_, ?_, ?_, ?_⟩ <;>
      · simp only [progressOf, String.reduceEq, reduceIte]
        norm_num
  · intro s
    constructor
    · unfold progressOf
      split_ifs with h1 h2 h3 h4 h5 h6 h7 <;> intro hp <;>
        first | exact h6 | exact absurd hp (by norm_num)
    · rintro rfl
      simp only [progressOf, String.reduceEq, reduceIte]
      norm_num
  · simp only [progressOf, String.reduceEq, reduceIte]

end SpeechToEmail
